import Mathlib

/-!
Verification of the PagerDuty chat assistant's tool-calling core.

Shallow embedding of:
* the Tool Registry Client singleton (`getMCPClient` in the MCP client module),
* the conversation loop of the chat route handler (`POST`),
* the Chat Surface submit handler (`sendMessage` in `page.tsx`).

External collaborators (the JSON codec of the runtime, the MCP tool provider,
the model backend, the URL constructor) are parameters of the embedding: the
loop's structure is translated from the source, the collaborators' outcomes are
supplied by oracles.  Model responses are supplied as a finite script, consumed
one per model invocation; running past the end of the script is reported as
`modelExhausted` (in the real program the loop would simply issue yet another
model request there).
-/

set_option autoImplicit false

namespace PDChat

/-- The `function` part of a model-proposed tool call:
`toolCall.function.name` and `toolCall.function.arguments` (a raw JSON text,
not yet parsed). -/
structure ToolCallFunction where
  name : String
  arguments : String
deriving Repr, DecidableEq

/-- A model-proposed tool call `{id, function}` as it appears in
`message.tool_calls`. -/
structure ToolCall where
  id : String
  function : ToolCallFunction
deriving Repr, DecidableEq

/-- The message of one model response (`response.choices[0].message`):
`content` may be absent (JS `null`), `tool_calls` may be absent or an
(possibly empty) array. -/
structure ResponseMessage where
  content : Option String
  tool_calls : Option (List ToolCall)
deriving Repr, DecidableEq

/-- A conversation message.  The incoming history holds `user`/`assistant`
text turns; during the loop the handler appends the raw model message
(`assistant`) and tool results (`tool`, carrying `tool_call_id`). -/
inductive Message where
  | user (content : String)
  | assistant (msg : ResponseMessage)
  | tool (tool_call_id : String) (content : String)
deriving Repr, DecidableEq

/-- One tool descriptor as returned by the registry's `listTools`; the input
schema is an opaque JSON value of type `Val`. -/
structure ToolDescriptor (Val : Type) where
  name : String
  description : String
  inputSchema : Val
deriving Repr, DecidableEq

/-- The `function` part of a tool schema sent to the model. -/
structure ToolSchemaFunction (Val : Type) where
  name : String
  description : String
  parameters : Val
deriving Repr, DecidableEq

/-- One entry of the `tools` array sent to the model:
`{type: "function", function: {name, description, parameters}}`. -/
structure ToolSchema (Val : Type) where
  type : String
  function : ToolSchemaFunction Val
deriving Repr, DecidableEq

/-- The handler's 1:1 derivation of tool schemas from registry descriptors
(`tools.map(...)` at the top of `POST`). -/
def toolSchemas {Val : Type} (tools : List (ToolDescriptor Val)) :
    List (ToolSchema Val) :=
  tools.map (fun tool => ⟨"function", ⟨tool.name, tool.description, tool.inputSchema⟩⟩)

/-- The configuration values the core reads from `process.env`.  Each is
`Option String`: `none` models an unset variable (the TypeScript `!`
assertions are compile-time only and perform no runtime check). -/
structure ProcessEnv where
  MCP_SERVER_URL : Option String
  OPENAI_API_KEY : Option String
  OPENAI_API_BASE : Option String
  OPENAI_MODEL : Option String
deriving Repr, DecidableEq

/-- One chat-completion request as built inside the loop:
`{model: process.env.OPENAI_MODEL!, messages: currentMessages, tools:
toolSchemas, tool_choice: "auto", temperature: 0.7}`.  The fixed
`temperature` is a float literal and is not modelled. -/
structure ChatRequest (Val : Type) where
  model : Option String
  messages : List Message
  tools : List (ToolSchema Val)
  tool_choice : String
deriving Repr, DecidableEq

/-- Builds the request of one model invocation, exactly as the call site in
the loop does; note `model` is the raw (possibly missing) env value. -/
def chatRequest {Val : Type} (penv : ProcessEnv) (schemas : List (ToolSchema Val))
    (currentMessages : List Message) : ChatRequest Val :=
  ⟨penv.OPENAI_MODEL, currentMessages, schemas, "auto"⟩

/-- Oracles for the runtime's JSON codec and the MCP tool invoker.
`parseJSON` is `JSON.parse` (throws on invalid input, modelled as `.error`);
`stringifyJSON` is `JSON.stringify` applied to `result.content`;
`callMCPTool name args` returns the provider result's `content` on success
and the raised error's `.message` on failure. -/
structure Env (Val : Type) where
  parseJSON : String → Except String Val
  stringifyJSON : Val → String
  callMCPTool : String → Val → Except String Val

/-- The JS guard `!message.tool_calls || message.tool_calls.length === 0`. -/
def noToolCalls (resp : ResponseMessage) : Bool :=
  match resp.tool_calls with
  | none => true
  | some tcs => tcs.isEmpty

/-- The JS expression `message.content || "No response."`: the sentinel is
substituted when `content` is absent or the empty string (both falsy). -/
def contentOrDefault : Option String → String
  | none => "No response."
  | some s => if s = "" then "No response." else s

/-- How the whole request can fail inside the loop body.  A `parseFailure`
is `JSON.parse` throwing on a model-proposed arguments string: it happens
outside the `try` around the tool invocation, so it propagates out of the
handler. -/
inductive LoopError where
  | parseFailure (message : String)
  | modelExhausted
deriving Repr, DecidableEq

/-- The final state of a completed loop: the final response text, the full
message history, and the log of chat-completion requests issued (one per
model invocation, so `requests.length` counts the rounds). -/
structure LoopResult (Val : Type) where
  finalResponse : String
  history : List Message
  requests : List (ChatRequest Val)
deriving Repr, DecidableEq

/-- The body of the `for` loop for one tool call: `JSON.parse` of the
arguments runs OUTSIDE the `try`, so its failure aborts the whole request;
inside the `try`, a successful invocation appends a `tool` message with the
stringified `result.content`, and a raised error is caught and appended as a
`tool` message whose content is the string interpolation of
`Error: $err.message` (never aborting). -/
def execToolCall {Val : Type} (env : Env Val) (tc : ToolCall)
    (currentMessages : List Message) : Except LoopError (List Message) :=
  match env.parseJSON tc.function.arguments with
  | .error e => .error (.parseFailure e)
  | .ok toolArgs =>
    match env.callMCPTool tc.function.name toolArgs with
    | .ok result =>
      .ok (currentMessages ++ [Message.tool tc.id (env.stringifyJSON result)])
    | .error e =>
      .ok (currentMessages ++ [Message.tool tc.id ("Error: " ++ e)])

/-- The `for (const toolCall of message.tool_calls)` loop: tool calls are
executed sequentially in receipt order, each appending its result message. -/
def execToolCalls {Val : Type} (env : Env Val) :
    List ToolCall → List Message → Except LoopError (List Message)
  | [], currentMessages => .ok currentMessages
  | tc :: rest, currentMessages =>
    match execToolCall env tc currentMessages with
    | .error e => .error e
    | .ok currentMessages' => execToolCalls env rest currentMessages'

/-- The `while (true)` tool-calling loop of the route handler.  Each
iteration: issue one chat-completion request (logged), take the model's
message from the script, push it onto `currentMessages`, and either finish
(no tool calls, `content || "No response."`) or execute every tool call of
the round and continue with the next model invocation. -/
def runLoop {Val : Type} (penv : ProcessEnv) (env : Env Val)
    (schemas : List (ToolSchema Val)) :
    List ResponseMessage → List Message → List (ChatRequest Val) →
    Except LoopError (LoopResult Val)
  | [], _, _ => .error .modelExhausted
  | resp :: rest, currentMessages, log =>
    let log' := log ++ [chatRequest penv schemas currentMessages]
    let currentMessages' := currentMessages ++ [Message.assistant resp]
    if noToolCalls resp then
      .ok ⟨contentOrDefault resp.content, currentMessages', log'⟩
    else
      match execToolCalls env (resp.tool_calls.getD []) currentMessages' with
      | .error e => .error e
      | .ok currentMessages'' => runLoop penv env schemas rest currentMessages'' log'

/-- The process-wide registry singleton state of the MCP client module:
the module-level `mcpClient` (clients identified by creation order) and
`tools` variables, plus a counter supplying fresh client identities. -/
structure Registry (Val : Type) where
  mcpClient : Option Nat
  tools : List (ToolDescriptor Val)
  nextId : Nat
deriving Repr, DecidableEq

/-- The registry state at process start: `mcpClient = null`, `tools = []`. -/
def initialRegistry (Val : Type) : Registry Val := ⟨none, [], 0⟩

/-- Outcomes of the external steps of one `getMCPClient` attempt:
`newURL` is the `new URL(...)` constructor (throws on an invalid URL text),
`connect` the transport handshake, `listTools` the tool-list fetch. -/
structure RegistryWorld (Val : Type) where
  newURL : String → Except String Unit
  connect : Except String Unit
  listTools : Except String (List (ToolDescriptor Val))

/-- `getMCPClient`: return the cached client and tool list when the
singleton is set; otherwise build the transport URL (a missing
`MCP_SERVER_URL` makes `new URL(undefined)` throw `TypeError: Invalid URL`),
construct a fresh `Client` and ASSIGN it to the module-level singleton, then
`await connect` and `await listTools`.  The assignment precedes the awaits,
exactly as in the source, so a failing `connect` leaves the singleton set. -/
def getMCPClient {Val : Type} (penv : ProcessEnv) (w : RegistryWorld Val)
    (st : Registry Val) :
    Except String (Nat × List (ToolDescriptor Val)) × Registry Val :=
  match st.mcpClient with
  | some c => (.ok (c, st.tools), st)
  | none =>
    match penv.MCP_SERVER_URL with
    | none => (.error "TypeError: Invalid URL", st)
    | some url =>
      match w.newURL url with
      | .error e => (.error e, st)
      | .ok _ =>
        let cid := st.nextId
        let st1 : Registry Val := { st with mcpClient := some cid, nextId := st.nextId + 1 }
        match w.connect with
        | .error e => (.error e, st1)
        | .ok _ =>
          match w.listTools with
          | .error e => (.error e, st1)
          | .ok ts => (.ok (cid, ts), { st1 with tools := ts })

/-- How a whole `POST` request fails: a registry/connection failure before
the loop, or a failure from inside the loop body. -/
inductive RequestError where
  | registry (message : String)
  | loop (e : LoopError)
deriving Repr, DecidableEq

/-- The route handler `POST`: read `messages` from the body, obtain the
registry's tool list via `getMCPClient`, derive the tool schemas, copy the
caller's array (`[...messages]`) into `currentMessages` and run the
tool-calling loop; respond with `{content: finalResponse}`.  The updated
registry state is returned alongside to model the module-level globals. -/
def POST {Val : Type} (penv : ProcessEnv) (env : Env Val) (w : RegistryWorld Val)
    (st : Registry Val) (script : List ResponseMessage) (messages : List Message) :
    Except RequestError String × Registry Val :=
  match getMCPClient penv w st with
  | (.error e, st') => (.error (.registry e), st')
  | (.ok (_, tools), st') =>
    match runLoop penv env (toolSchemas tools) script messages [] with
    | .error e => (.error (.loop e), st')
    | .ok r => (.ok r.finalResponse, st')

/-- Display roles of the Chat Surface (`page.tsx`). -/
inductive ChatRole where
  | user
  | assistant
deriving Repr, DecidableEq

/-- One displayed chat message `{role, content}`. -/
structure ChatMessage where
  role : ChatRole
  content : String
deriving Repr, DecidableEq

/-- The component state of the Chat Surface: the `messages`, `input` and
`isLoading` React state values. -/
structure ChatState where
  messages : List ChatMessage
  input : String
  isLoading : Bool
deriving Repr, DecidableEq

/-- The fixed user-visible fallback appended when the request fails. -/
def errorFallback : String := "❌ Error connecting to backend or MCP server."

/-- The front half of `sendMessage`, up to issuing the fetch: the guard
`if (!input.trim() || isLoading) return;`, the optimistic local append of
the user message, clearing the input and setting `isLoading`.  Returns the
updated state and the request body's message list `[...messages, userMsg]`,
or `none` when the guard rejects the submission. -/
def sendMessageBegin (st : ChatState) : Option (ChatState × List ChatMessage) :=
  if st.input.trim = "" ∨ st.isLoading = true then none
  else
    let userMsg : ChatMessage := ⟨ChatRole.user, st.input⟩
    some (⟨st.messages ++ [userMsg], "", true⟩, st.messages ++ [userMsg])

/-- The back half of `sendMessage`: on a delivered response append one
assistant message with `data.content`; on a caught error append one
assistant message with the fixed fallback text; either way the `finally`
resets `isLoading`. -/
def sendMessageComplete (st : ChatState) (outcome : Except Unit String) : ChatState :=
  match outcome with
  | .ok content => ⟨st.messages ++ [⟨ChatRole.assistant, content⟩], st.input, false⟩
  | .error _ => ⟨st.messages ++ [⟨ChatRole.assistant, errorFallback⟩], st.input, false⟩

/-! ### Concrete fixtures used by witnesses and counterexamples -/

/-- A JSON oracle that accepts every arguments text. -/
def envS : Env String := ⟨fun s => Except.ok s, fun v => v, fun _ _ => Except.ok "ok"⟩

/-- A JSON oracle that rejects exactly the text `not json`. -/
def envP : Env String :=
  ⟨fun s => if s = "not json" then Except.error "Unexpected token" else Except.ok s,
   fun v => v, fun _ _ => Except.ok "ok"⟩

/-- An oracle whose tool invocations always raise. -/
def envE : Env String :=
  ⟨fun s => Except.ok s, fun v => v, fun _ _ => Except.error "tool exploded"⟩

/-- A fully populated configuration. -/
def penv0 : ProcessEnv :=
  ⟨some "mcp-server-url", some "api-key", none, some "gpt-4o"⟩

/-- A configuration whose only missing value is the model identifier. -/
def penvNoModel : ProcessEnv := ⟨some "mcp-server-url", some "api-key", none, none⟩

/-- A configuration whose tool-provider URL is missing. -/
def penvNoURL : ProcessEnv := ⟨none, some "api-key", none, some "gpt-4o"⟩

/-- A sample registry tool. -/
def td0 : ToolDescriptor String := ⟨"list_services", "List PagerDuty services", "schema"⟩

/-- A world where the transport handshake fails (endpoint unreachable). -/
def wFail : RegistryWorld String :=
  ⟨fun _ => Except.ok (), Except.error "ECONNREFUSED", Except.ok [td0]⟩

/-- A world where connection and tool listing succeed. -/
def wHealthy : RegistryWorld String :=
  ⟨fun _ => Except.ok (), Except.ok (), Except.ok [td0]⟩

/-- A tool call with well-formed arguments. -/
def tc0 : ToolCall := ⟨"call_1", ⟨"list_services", "42"⟩⟩

/-- A tool call whose arguments text is not valid JSON for `envP`. -/
def tcBad : ToolCall := ⟨"call_2", ⟨"create_incident", "not json"⟩⟩

/-- A model response requesting one tool call. -/
def respT : ResponseMessage := ⟨none, some [tc0]⟩

/-- A final model response with no tool calls. -/
def respF : ResponseMessage := ⟨some "done", none⟩

/-- A model response requesting one tool call with unparsable arguments. -/
def respBad : ResponseMessage := ⟨none, some [tcBad]⟩

/-! ### Helper lemmas -/

theorem execToolCall_ok_of_parse {Val : Type} (env : Env Val) (tc : ToolCall)
    (msgs : List Message)
    (h : ∃ v, env.parseJSON tc.function.arguments = Except.ok v) :
    ∃ c, execToolCall env tc msgs = .ok (msgs ++ [Message.tool tc.id c]) := by
  obtain ⟨v, hv⟩ := h
  cases hc : env.callMCPTool tc.function.name v with
  | ok result => exact ⟨env.stringifyJSON result, by simp [execToolCall, hv, hc]⟩
  | error e => exact ⟨"Error: " ++ e, by simp [execToolCall, hv, hc]⟩

theorem execToolCalls_of_parses {Val : Type} (env : Env Val) (tcs : List ToolCall)
    (msgs : List Message)
    (h : ∀ tc ∈ tcs, ∃ v, env.parseJSON tc.function.arguments = Except.ok v) :
    ∃ contents : List String, contents.length = tcs.length ∧
      execToolCalls env tcs msgs =
        .ok (msgs ++ List.zipWith (fun tc c => Message.tool tc.id c) tcs contents) := by
  induction tcs generalizing msgs with
  | nil => exact ⟨[], rfl, by simp [execToolCalls]⟩
  | cons tc rest ih =>
    obtain ⟨c, hc⟩ := execToolCall_ok_of_parse env tc msgs (h tc (by simp))
    obtain ⟨contents, hlen, hrun⟩ :=
      ih (msgs ++ [Message.tool tc.id c]) (fun x hx => h x (by simp [hx]))
    refine ⟨c :: contents, by simp [hlen], ?_⟩
    simp [execToolCalls, hc, hrun]

theorem runLoop_round {Val : Type} (penv : ProcessEnv) (env : Env Val)
    (schemas : List (ToolSchema Val)) (resp : ResponseMessage)
    (rest : List ResponseMessage) (msgs : List Message) (log : List (ChatRequest Val))
    (hnt : noToolCalls resp = false)
    (h : ∀ tc ∈ resp.tool_calls.getD [], ∃ v, env.parseJSON tc.function.arguments = Except.ok v) :
    ∃ contents : List String, contents.length = (resp.tool_calls.getD []).length ∧
      runLoop penv env schemas (resp :: rest) msgs log =
        runLoop penv env schemas rest
          (msgs ++ [Message.assistant resp] ++
            List.zipWith (fun tc c => Message.tool tc.id c) (resp.tool_calls.getD []) contents)
          (log ++ [chatRequest penv schemas msgs]) := by
  obtain ⟨contents, hlen, hrun⟩ :=
    execToolCalls_of_parses env (resp.tool_calls.getD []) (msgs ++ [Message.assistant resp]) h
  refine ⟨contents, hlen, ?_⟩
  simp [runLoop, hnt, hrun]

/-! ### Claim C1 -/

/-- Claim C1, counterexample: the claim as stated fails when a request's
arguments text is not valid JSON.  For the concrete round `respBad`
(one tool-call request whose arguments `envP` rejects) the loop aborts with
a parse failure: the `for` loop over the round returns an error instead of
a message list, so no tool-result message is appended for the request and
the next scripted model response is never consumed. -/
theorem claim1_counterexample :
    runLoop penv0 envP (toolSchemas [td0]) [respBad, respF] [] [] =
      .error (.parseFailure "Unexpected token") ∧
    execToolCalls envP [tcBad] [Message.assistant respBad] =
      .error (.parseFailure "Unexpected token") := by
  constructor <;> rfl

/-- Claim C1 (amended): for every model response with N ≥ 1 tool-call
requests, provided each request's arguments string parses as JSON, the loop
appends the assistant message (with the raw requests) to the history first
and then exactly N tool-result messages, the i-th carrying the
`tool_call_id` of the i-th request, before the next model invocation. -/
theorem claim1_amended_round_pairing {Val : Type} (penv : ProcessEnv) (env : Env Val)
    (schemas : List (ToolSchema Val)) (resp : ResponseMessage)
    (rest : List ResponseMessage) (msgs : List Message) (log : List (ChatRequest Val))
    (hnt : noToolCalls resp = false)
    (hparse : ∀ tc ∈ resp.tool_calls.getD [],
      ∃ v, env.parseJSON tc.function.arguments = Except.ok v) :
    resp.tool_calls.getD [] ≠ [] ∧
    ∃ contents : List String, contents.length = (resp.tool_calls.getD []).length ∧
      runLoop penv env schemas (resp :: rest) msgs log =
        runLoop penv env schemas rest
          (msgs ++ [Message.assistant resp] ++
            List.zipWith (fun tc c => Message.tool tc.id c) (resp.tool_calls.getD []) contents)
          (log ++ [chatRequest penv schemas msgs]) := by
  refine ⟨?_, runLoop_round penv env schemas resp rest msgs log hnt hparse⟩
  cases htc : resp.tool_calls with
  | none => simp [noToolCalls, htc] at hnt
  | some l =>
    simp only [htc, Option.getD_some]
    intro hl
    simp [noToolCalls, htc, hl] at hnt

/-- Witness for claim C1 at the concrete round `respT` followed by a final
response. -/
theorem claim1_amended_witness :
    respT.tool_calls.getD [] ≠ [] ∧
    ∃ contents : List String, contents.length = (respT.tool_calls.getD []).length ∧
      runLoop penv0 envS (toolSchemas [td0]) [respT, respF] [] [] =
        runLoop penv0 envS (toolSchemas [td0]) [respF]
          ([] ++ [Message.assistant respT] ++
            List.zipWith (fun tc c => Message.tool tc.id c) (respT.tool_calls.getD []) contents)
          ([] ++ [chatRequest penv0 (toolSchemas [td0]) []]) :=
  claim1_amended_round_pairing penv0 envS (toolSchemas [td0]) respT [respF] [] []
    (by decide) (fun tc _ => ⟨tc.function.arguments, rfl⟩)

/-! ### Claim C2 -/

/-- Claim C2: if a tool invocation raises, the loop appends a tool-result
message for that request whose content begins with the text `Error:`, the
remaining tool calls of the round are still executed, and the loop then
proceeds to the next model round rather than aborting. -/
theorem claim2_tool_error_recovered {Val : Type} (env : Env Val) (tc : ToolCall)
    (tcs : List ToolCall) (msgs : List Message) (v : Val) (e : String)
    (hp : env.parseJSON tc.function.arguments = Except.ok v)
    (hc : env.callMCPTool tc.function.name v = Except.error e) :
    (∃ s, "Error: " ++ e = "Error:" ++ s) ∧
    execToolCall env tc msgs = .ok (msgs ++ [Message.tool tc.id ("Error: " ++ e)]) ∧
    execToolCalls env (tc :: tcs) msgs =
      execToolCalls env tcs (msgs ++ [Message.tool tc.id ("Error: " ++ e)]) ∧
    ∀ (penv : ProcessEnv) (schemas : List (ToolSchema Val)) (resp : ResponseMessage)
      (rest : List ResponseMessage) (msgs0 : List Message) (log : List (ChatRequest Val)),
      resp.tool_calls = some [tc] →
      runLoop penv env schemas (resp :: rest) msgs0 log =
        runLoop penv env schemas rest
          (msgs0 ++ [Message.assistant resp, Message.tool tc.id ("Error: " ++ e)])
          (log ++ [chatRequest penv schemas msgs0]) := by
  refine ⟨⟨" " ++ e, ?_⟩, ?_, ?_, ?_⟩
  · rw [← String.append_assoc]
    exact congrArg (fun s => s ++ e) (by decide)
  · simp [execToolCall, hp, hc]
  · simp [execToolCalls, execToolCall, hp, hc]
  · intro penv schemas resp rest msgs0 log htc
    have hnt : noToolCalls resp = false := by simp [noToolCalls, htc]
    simp [runLoop, hnt, htc, execToolCalls, execToolCall, hp, hc]

/-- Witness for claim C2: with the always-raising invoker `envE`, the round
with the single call `tc0` recovers into an `Error:` result message. -/
theorem claim2_witness :
    (∃ s, "Error: " ++ "tool exploded" = "Error:" ++ s) ∧
    execToolCall envE tc0 [] = .ok ([] ++ [Message.tool tc0.id ("Error: " ++ "tool exploded")]) ∧
    execToolCalls envE (tc0 :: []) [] =
      execToolCalls envE [] ([] ++ [Message.tool tc0.id ("Error: " ++ "tool exploded")]) ∧
    ∀ (penv : ProcessEnv) (schemas : List (ToolSchema String)) (resp : ResponseMessage)
      (rest : List ResponseMessage) (msgs0 : List Message) (log : List (ChatRequest String)),
      resp.tool_calls = some [tc0] →
      runLoop penv envE schemas (resp :: rest) msgs0 log =
        runLoop penv envE schemas rest
          (msgs0 ++ [Message.assistant resp, Message.tool tc0.id ("Error: " ++ "tool exploded")])
          (log ++ [chatRequest penv schemas msgs0]) :=
  claim2_tool_error_recovered envE tc0 [] [] "42" "tool exploded" rfl rfl

/-! ### Claim C3 -/

/-- Claim C3: when the first model response contains no tool-call requests,
the loop terminates after exactly one model invocation (the request log has
one entry and the rest of the script is untouched) and the response body is
that response's content verbatim, with the sentinel `No response.`
substituted exactly when the content is absent or empty. -/
theorem claim3_final_round_verbatim {Val : Type} (penv : ProcessEnv) (env : Env Val)
    (w : RegistryWorld Val) (st st' : Registry Val) (c : Nat)
    (ts : List (ToolDescriptor Val)) (resp : ResponseMessage)
    (rest : List ResponseMessage) (messages : List Message)
    (hreg : getMCPClient penv w st = (Except.ok (c, ts), st'))
    (hnt : noToolCalls resp = true) :
    POST penv env w st (resp :: rest) messages =
      (.ok (contentOrDefault resp.content), st') ∧
    runLoop penv env (toolSchemas ts) (resp :: rest) messages [] =
      .ok ⟨contentOrDefault resp.content, messages ++ [Message.assistant resp],
           [chatRequest penv (toolSchemas ts) messages]⟩ ∧
    (∀ s, resp.content = some s → ¬ s = "" → contentOrDefault resp.content = s) ∧
    ((resp.content = none ∨ resp.content = some "") →
      contentOrDefault resp.content = "No response.") := by
  have hloop : runLoop penv env (toolSchemas ts) (resp :: rest) messages [] =
      .ok ⟨contentOrDefault resp.content, messages ++ [Message.assistant resp],
           [chatRequest penv (toolSchemas ts) messages]⟩ := by
    simp [runLoop, hnt]
  refine ⟨?_, hloop, ?_, ?_⟩
  · simp [POST, hreg, hloop]
  · intro s hs hne
    simp [contentOrDefault, hs, hne]
  · rintro (h | h) <;> simp [contentOrDefault, h]

/-- Witness for claim C3 on a healthy registry and the final response
`respF`. -/
theorem claim3_witness :
    POST penv0 envS wHealthy (initialRegistry String) [respF] [Message.user "hello"] =
      (.ok (contentOrDefault respF.content), ⟨some 0, [td0], 1⟩) ∧
    runLoop penv0 envS (toolSchemas [td0]) [respF] [Message.user "hello"] [] =
      .ok ⟨contentOrDefault respF.content, [Message.user "hello"] ++ [Message.assistant respF],
           [chatRequest penv0 (toolSchemas [td0]) [Message.user "hello"]]⟩ ∧
    (∀ s, respF.content = some s → ¬ s = "" → contentOrDefault respF.content = s) ∧
    ((respF.content = none ∨ respF.content = some "") →
      contentOrDefault respF.content = "No response.") :=
  claim3_final_round_verbatim penv0 envS wHealthy (initialRegistry String)
    ⟨some 0, [td0], 1⟩ 0 [td0] respF [] [Message.user "hello"] rfl rfl

/-! ### Claim C4 -/

/-- Claim C4 (code bug in the source): because the module-level singleton is
assigned before `await connect`, a failed handshake leaves the client
cached.  Concretely: the first call fails with the connection error but
leaves `mcpClient` set (client 0) and `tools = []`; a second call against a
now-healthy world returns the cached dead client with the empty tool list
instead of retrying — while the same healthy world from a clean state would
have connected and loaded the tool list (third conjunct). -/
theorem claim4_failed_connect_poisons_singleton :
    getMCPClient penv0 wFail (initialRegistry String) =
      (.error "ECONNREFUSED", ⟨some 0, [], 1⟩) ∧
    getMCPClient penv0 wHealthy ⟨some 0, [], 1⟩ =
      (.ok (0, []), ⟨some 0, [], 1⟩) ∧
    getMCPClient penv0 wHealthy (initialRegistry String) =
      (.ok (0, [td0]), ⟨some 0, [td0], 1⟩) :=
  ⟨rfl, rfl, rfl⟩

/-! ### Claim C5 -/

theorem getMCPClient_ok_cached {Val : Type} (penv : ProcessEnv) (w : RegistryWorld Val)
    (st st' : Registry Val) (c : Nat) (ts : List (ToolDescriptor Val))
    (h : getMCPClient penv w st = (Except.ok (c, ts), st')) :
    st'.mcpClient = some c ∧ st'.tools = ts := by
  unfold getMCPClient at h
  cases hst : st.mcpClient with
  | some c0 =>
    simp only [hst, Prod.mk.injEq, Except.ok.injEq] at h
    obtain ⟨⟨hc, hts⟩, hstates⟩ := h
    subst hstates
    exact ⟨by rw [hst, hc], hts⟩
  | none =>
    simp only [hst] at h
    cases hurl : penv.MCP_SERVER_URL with
    | none => simp [hurl] at h
    | some url =>
      simp only [hurl] at h
      cases hu : w.newURL url with
      | error e => simp [hu] at h
      | ok u =>
        simp only [hu] at h
        cases hcn : w.connect with
        | error e => simp [hcn] at h
        | ok u2 =>
          simp only [hcn] at h
          cases hl : w.listTools with
          | error e => simp [hl] at h
          | ok ts0 =>
            simp only [hl, Prod.mk.injEq, Except.ok.injEq] at h
            obtain ⟨⟨hcid, hts⟩, hstates⟩ := h
            subst hstates
            subst hts
            exact ⟨by rw [hcid], rfl⟩

/-- Claim C5: once a call to the registry client succeeded, every later
call returns the identical cached client and tool list and leaves the state
untouched, whatever the later call's network world or configuration would
have done — no second handshake or tool-list fetch is performed. -/
theorem claim5_connect_idempotent {Val : Type} (penv penv' : ProcessEnv)
    (w w' : RegistryWorld Val) (st st' : Registry Val) (c : Nat)
    (ts : List (ToolDescriptor Val))
    (h : getMCPClient penv w st = (Except.ok (c, ts), st')) :
    getMCPClient penv' w' st' = (Except.ok (c, ts), st') := by
  obtain ⟨h1, h2⟩ := getMCPClient_ok_cached penv w st st' c ts h
  simp [getMCPClient, h1, h2]

/-- Witness for claim C5: after the healthy first call, a second call whose
world would fail to connect still returns the cached client and tools. -/
theorem claim5_witness :
    getMCPClient penv0 wFail ⟨some 0, [td0], 1⟩ =
      (Except.ok (0, [td0]), (⟨some 0, [td0], 1⟩ : Registry String)) :=
  claim5_connect_idempotent penv0 penv0 wHealthy wFail (initialRegistry String)
    ⟨some 0, [td0], 1⟩ 0 [td0] rfl

/-! ### Claim C6 -/

/-- Claim C6: the loop has no built-in round bound.  Under parse-clean
rounds: if every scripted response requests tools, the loop consumes the
entire script — however long — and is still awaiting the model
(`modelExhausted`); and the loop yields a final answer exactly when some
scripted response contains no tool-call requests. -/
theorem claim6_loop_unbounded {Val : Type} (penv : ProcessEnv) (env : Env Val)
    (schemas : List (ToolSchema Val)) (script : List ResponseMessage)
    (msgs : List Message) (log : List (ChatRequest Val))
    (hparse : ∀ resp ∈ script, ∀ tc ∈ resp.tool_calls.getD [],
      ∃ v, env.parseJSON tc.function.arguments = Except.ok v) :
    ((∀ resp ∈ script, noToolCalls resp = false) →
      runLoop penv env schemas script msgs log = .error .modelExhausted) ∧
    ((∃ r, runLoop penv env schemas script msgs log = .ok r) ↔
      ∃ resp ∈ script, noToolCalls resp = true) := by
  induction script generalizing msgs log with
  | nil =>
    refine ⟨fun _ => rfl, ?_⟩
    simp [runLoop]
  | cons resp rest ih =>
    have hhead := hparse resp (by simp)
    have htail : ∀ r ∈ rest, ∀ tc ∈ r.tool_calls.getD [],
        ∃ v, env.parseJSON tc.function.arguments = Except.ok v :=
      fun r hr => hparse r (by simp [hr])
    cases hnt : noToolCalls resp with
    | true =>
      have hloop : runLoop penv env schemas (resp :: rest) msgs log =
          .ok ⟨contentOrDefault resp.content, msgs ++ [Message.assistant resp],
               log ++ [chatRequest penv schemas msgs]⟩ := by
        simp [runLoop, hnt]
      refine ⟨fun hall => absurd hnt (by simp [hall resp (by simp)]), ?_, ?_⟩
      · intro _
        exact ⟨resp, by simp, hnt⟩
      · intro _
        exact ⟨_, hloop⟩
    | false =>
      obtain ⟨contents, _, heq⟩ := runLoop_round penv env schemas resp rest msgs log hnt hhead
      obtain ⟨ih1, ih2⟩ := ih
        (msgs ++ [Message.assistant resp] ++
          List.zipWith (fun tc c => Message.tool tc.id c) (resp.tool_calls.getD []) contents)
        (log ++ [chatRequest penv schemas msgs]) htail
      constructor
      · intro hall
        rw [heq]
        exact ih1 (fun r hr => hall r (by simp [hr]))
      · rw [heq, ih2]
        constructor
        · rintro ⟨x, hx, h⟩
          exact ⟨x, by simp [hx], h⟩
        · rintro ⟨x, hx, h⟩
          rcases (by simpa using hx : x = resp ∨ x ∈ rest) with rfl | hx'
          · exact absurd h (by simp [hnt])
          · exact ⟨x, hx', h⟩

/-- Witness for claim C6 on a three-round all-tool-call script. -/
theorem claim6_witness :
    ((∀ resp ∈ [respT, respT, respT], noToolCalls resp = false) →
      runLoop penv0 envS (toolSchemas [td0]) [respT, respT, respT] [] [] =
        .error .modelExhausted) ∧
    ((∃ r, runLoop penv0 envS (toolSchemas [td0]) [respT, respT, respT] [] [] = .ok r) ↔
      ∃ resp ∈ [respT, respT, respT], noToolCalls resp = true) :=
  claim6_loop_unbounded penv0 envS (toolSchemas [td0]) [respT, respT, respT] [] []
    (fun _ _ tc _ => ⟨tc.function.arguments, rfl⟩)

/-! ### Claim C7 -/

theorem takeWhileAux_hi : Substring.takeWhileAux "hi" ⟨2⟩ Char.isWhitespace ⟨0⟩ = ⟨0⟩ := by
  rw [Substring.takeWhileAux.eq_def]
  norm_num
  decide

theorem takeRightWhileAux_hi :
    Substring.takeRightWhileAux "hi" ⟨0⟩ Char.isWhitespace ⟨2⟩ = ⟨2⟩ := by
  rw [Substring.takeRightWhileAux.eq_def]
  norm_num
  decide

theorem trim_hi : "hi".trim = "hi" := by
  show "hi".toSubstring.trim.toString = "hi"
  unfold Substring.trim
  show (Substring.mk "hi"
      (Substring.takeWhileAux "hi" ⟨2⟩ Char.isWhitespace ⟨0⟩)
      (Substring.takeRightWhileAux "hi" (Substring.takeWhileAux "hi" ⟨2⟩ Char.isWhitespace ⟨0⟩)
        Char.isWhitespace ⟨2⟩)).toString = "hi"
  rw [takeWhileAux_hi]
  rw [takeRightWhileAux_hi]
  decide

/-- Claim C7: a valid submit appends the user message to the visible
history, issues one request whose body is the entire prior history plus the
new message, disables further submission while in flight (the guard rejects
a second submit), and on completion appends exactly one assistant message —
the delivered answer or the fixed error text — re-enabling submission; on an
error the user's own message is still in the visible history. -/
theorem claim7_submit_contract (st : ChatState)
    (h1 : ¬ st.input.trim = "") (h2 : st.isLoading = false) :
    ∃ st1 req, sendMessageBegin st = some (st1, req) ∧
      st1.messages = st.messages ++ [⟨ChatRole.user, st.input⟩] ∧
      req = st.messages ++ [⟨ChatRole.user, st.input⟩] ∧
      st1.isLoading = true ∧
      sendMessageBegin st1 = none ∧
      ∀ outcome : Except Unit String, ∃ a,
        (sendMessageComplete st1 outcome).messages =
          st.messages ++ [⟨ChatRole.user, st.input⟩, ⟨ChatRole.assistant, a⟩] ∧
        ((∃ content, outcome = Except.ok content ∧ a = content) ∨
         (outcome = Except.error () ∧ a = errorFallback)) ∧
        (⟨ChatRole.user, st.input⟩ : ChatMessage) ∈ (sendMessageComplete st1 outcome).messages ∧
        (sendMessageComplete st1 outcome).isLoading = false := by
  have hbegin : sendMessageBegin st =
      some (⟨st.messages ++ [⟨ChatRole.user, st.input⟩], "", true⟩,
            st.messages ++ [⟨ChatRole.user, st.input⟩]) := by
    simp [sendMessageBegin, h1, h2]
  refine ⟨_, _, hbegin, rfl, rfl, rfl, ?_, ?_⟩
  · simp [sendMessageBegin]
  · intro outcome
    cases outcome with
    | ok content =>
      exact ⟨content, by simp [sendMessageComplete],
        Or.inl ⟨content, rfl, rfl⟩, by simp [sendMessageComplete], rfl⟩
    | error u =>
      cases u
      exact ⟨errorFallback, by simp [sendMessageComplete],
        Or.inr ⟨rfl, rfl⟩, by simp [sendMessageComplete], rfl⟩

/-- Witness for claim C7 from the empty chat with input `hi`. -/
theorem claim7_witness :
    ∃ st1 req, sendMessageBegin ⟨[], "hi", false⟩ = some (st1, req) ∧
      st1.messages = [] ++ [⟨ChatRole.user, "hi"⟩] ∧
      req = [] ++ [⟨ChatRole.user, "hi"⟩] ∧
      st1.isLoading = true ∧
      sendMessageBegin st1 = none ∧
      ∀ outcome : Except Unit String, ∃ a,
        (sendMessageComplete st1 outcome).messages =
          [] ++ [⟨ChatRole.user, "hi"⟩, ⟨ChatRole.assistant, a⟩] ∧
        ((∃ content, outcome = Except.ok content ∧ a = content) ∨
         (outcome = Except.error () ∧ a = errorFallback)) ∧
        (⟨ChatRole.user, "hi"⟩ : ChatMessage) ∈ (sendMessageComplete st1 outcome).messages ∧
        (sendMessageComplete st1 outcome).isLoading = false :=
  claim7_submit_contract ⟨[], "hi", false⟩
    (by show ¬ "hi".trim = ""
        rw [trim_hi]
        decide)
    rfl

/-! ### Claim C8 -/

/-- Claim C8, counterexample: with every configuration value present except
the model identifier, the request completes with no configuration failure
anywhere, and the one chat-completion request issued inside the loop
carries `model = none` — the missing value is handed to the model backend
from inside the loop instead of failing fast. -/
theorem claim8_counterexample :
    POST penvNoModel envS wHealthy (initialRegistry String) [respF] [] =
      (.ok "done", ⟨some 0, [td0], 1⟩) ∧
    runLoop penvNoModel envS (toolSchemas [td0]) [respF] [] [] =
      .ok ⟨"done", [Message.assistant respF],
           [⟨none, [], toolSchemas [td0], "auto"⟩]⟩ :=
  ⟨rfl, rfl⟩

/-- Claim C8 (amended): presence is not validated uniformly.  A missing
tool-provider URL does surface before any loop round (the URL constructor
throws in `getMCPClient`, leaving the registry untouched); but a missing
model identifier is never checked: every chat-completion request the loop
issues carries `model = none`, so that failure surfaces only at the model
backend inside the conversation loop. -/
theorem claim8_amended_validation {Val : Type} :
    (∀ (penv : ProcessEnv) (w : RegistryWorld Val) (st : Registry Val),
       st.mcpClient = none → penv.MCP_SERVER_URL = none →
       getMCPClient penv w st = (Except.error "TypeError: Invalid URL", st)) ∧
    (∀ (penv : ProcessEnv) (env : Env Val) (schemas : List (ToolSchema Val))
       (script : List ResponseMessage) (msgs : List Message)
       (log : List (ChatRequest Val)) (r : LoopResult Val),
       penv.OPENAI_MODEL = none →
       (∀ req ∈ log, req.model = none) →
       runLoop penv env schemas script msgs log = Except.ok r →
       ∀ req ∈ r.requests, req.model = none) := by
  constructor
  · intro penv w st hstc hurl
    simp [getMCPClient, hstc, hurl]
  · intro penv env schemas script
    induction script with
    | nil =>
      intro msgs log r _ _ h
      simp [runLoop] at h
    | cons resp rest ih =>
      intro msgs log r hm hlog h
      have hlog' : ∀ req ∈ log ++ [chatRequest penv schemas msgs], req.model = none := by
        intro req hreq
        rcases (by simpa using hreq : req ∈ log ∨ req = chatRequest penv schemas msgs)
          with hq | rfl
        · exact hlog _ hq
        · simpa [chatRequest] using hm
      cases hnt : noToolCalls resp with
      | true =>
        simp only [runLoop, hnt, if_true, Except.ok.injEq] at h
        subst h
        exact fun req hreq => hlog' req (by simpa using hreq)
      | false =>
        simp only [runLoop, hnt, Bool.false_eq_true, if_false] at h
        cases hexe : execToolCalls env (resp.tool_calls.getD [])
            (msgs ++ [Message.assistant resp]) with
        | error e => simp [hexe] at h
        | ok m =>
          simp only [hexe] at h
          exact ih m (log ++ [chatRequest penv schemas msgs]) r hm hlog' h

/-- Witness for claim C8: the missing-URL failure at a concrete clean
registry, and the concrete one-round run whose only issued request carries
`model = none`. -/
theorem claim8_amended_witness :
    getMCPClient penvNoURL wHealthy (initialRegistry String) =
      (Except.error "TypeError: Invalid URL", initialRegistry String) ∧
    ∀ req ∈ ((⟨"done", [Message.assistant respF],
        [⟨none, [], toolSchemas [td0], "auto"⟩]⟩ : LoopResult String)).requests,
      req.model = none :=
  ⟨(@claim8_amended_validation String).1 penvNoURL wHealthy (initialRegistry String) rfl rfl,
   (@claim8_amended_validation String).2 penvNoModel envS (toolSchemas [td0]) [respF] [] []
     ⟨"done", [Message.assistant respF], [⟨none, [], toolSchemas [td0], "auto"⟩]⟩
     rfl (by simp) rfl⟩

/-! ### Claim C9 -/

theorem execToolCall_extends {Val : Type} (env : Env Val) (tc : ToolCall)
    (msgs msgs' : List Message) (h : execToolCall env tc msgs = .ok msgs') :
    ∃ d, msgs' = msgs ++ d := by
  unfold execToolCall at h
  cases hp : env.parseJSON tc.function.arguments with
  | error e => simp [hp] at h
  | ok v =>
    simp only [hp] at h
    cases hc : env.callMCPTool tc.function.name v with
    | ok result =>
      simp only [hc, Except.ok.injEq] at h
      exact ⟨_, h.symm⟩
    | error e =>
      simp only [hc, Except.ok.injEq] at h
      exact ⟨_, h.symm⟩

theorem execToolCalls_extends {Val : Type} (env : Env Val) (tcs : List ToolCall)
    (msgs msgs' : List Message) (h : execToolCalls env tcs msgs = .ok msgs') :
    ∃ d, msgs' = msgs ++ d := by
  induction tcs generalizing msgs with
  | nil =>
    simp only [execToolCalls, Except.ok.injEq] at h
    exact ⟨[], by simp [h.symm]⟩
  | cons tc rest ih =>
    simp only [execToolCalls] at h
    cases he : execToolCall env tc msgs with
    | error e => simp [he] at h
    | ok m1 =>
      simp only [he] at h
      obtain ⟨d1, hd1⟩ := execToolCall_extends env tc msgs m1 he
      obtain ⟨d2, hd2⟩ := ih m1 h
      exact ⟨d1 ++ d2, by rw [hd2, hd1, List.append_assoc]⟩

theorem runLoop_extends {Val : Type} (penv : ProcessEnv) (env : Env Val)
    (schemas : List (ToolSchema Val)) (script : List ResponseMessage)
    (msgs : List Message) (log : List (ChatRequest Val)) (r : LoopResult Val)
    (h : runLoop penv env schemas script msgs log = Except.ok r) :
    ∃ delta, r.history = msgs ++ delta := by
  induction script generalizing msgs log with
  | nil => simp [runLoop] at h
  | cons resp rest ih =>
    cases hnt : noToolCalls resp with
    | true =>
      simp only [runLoop, hnt, if_true, Except.ok.injEq] at h
      subst h
      exact ⟨[Message.assistant resp], rfl⟩
    | false =>
      simp only [runLoop, hnt, Bool.false_eq_true, if_false] at h
      cases hexe : execToolCalls env (resp.tool_calls.getD [])
          (msgs ++ [Message.assistant resp]) with
      | error e => simp [hexe] at h
      | ok m =>
        simp only [hexe] at h
        obtain ⟨d0, hd0⟩ := execToolCalls_extends env _ _ m hexe
        obtain ⟨d, hd⟩ := ih m (log ++ [chatRequest penv schemas msgs]) h
        exact ⟨[Message.assistant resp] ++ d0 ++ d, by
          rw [hd, hd0]
          simp [List.append_assoc]⟩

/-- Claim C9: each run of the handler is a pure function of the incoming
message list and the external oracles — the caller's list is only ever
extended (it is a prefix of the final history, never rewritten), and two
runs on equal inputs with equal oracle behavior produce the identical
result, so no state appended by one run is visible to another. -/
theorem claim9_run_purity {Val : Type} (penv : ProcessEnv) (env : Env Val)
    (schemas : List (ToolSchema Val)) (script : List ResponseMessage)
    (msgs : List Message) (log : List (ChatRequest Val)) (r : LoopResult Val)
    (h : runLoop penv env schemas script msgs log = Except.ok r) :
    (∃ delta, r.history = msgs ++ delta) ∧
    (∀ r', runLoop penv env schemas script msgs log = Except.ok r' → r' = r) := by
  refine ⟨runLoop_extends penv env schemas script msgs log r h, ?_⟩
  intro r' h'
  rw [h] at h'
  injection h' with hh
  exact hh.symm

/-- Witness for claim C9 on a concrete one-round run. -/
theorem claim9_witness :
    (∃ delta, (LoopResult.history (⟨"done", [Message.assistant respF],
        [chatRequest penv0 (toolSchemas [td0]) []]⟩ : LoopResult String)) = [] ++ delta) ∧
    (∀ r', runLoop penv0 envS (toolSchemas [td0]) [respF] [] [] = Except.ok r' →
      r' = ⟨"done", [Message.assistant respF], [chatRequest penv0 (toolSchemas [td0]) []]⟩) :=
  claim9_run_purity penv0 envS (toolSchemas [td0]) [respF] [] []
    ⟨"done", [Message.assistant respF], [chatRequest penv0 (toolSchemas [td0]) []]⟩ rfl

/-! ### Claim C10 -/

theorem execToolCalls_parse_abort {Val : Type} (env : Env Val) (pre : List ToolCall)
    (tc : ToolCall) (post : List ToolCall) (e : String)
    (hpre : ∀ x ∈ pre, ∃ v, env.parseJSON x.function.arguments = Except.ok v)
    (hbad : env.parseJSON tc.function.arguments = Except.error e) :
    ∀ msgs, execToolCalls env (pre ++ tc :: post) msgs = .error (.parseFailure e) := by
  induction pre with
  | nil =>
    intro msgs
    simp [execToolCalls, execToolCall, hbad]
  | cons x xs ih =>
    intro msgs
    obtain ⟨c, hc⟩ := execToolCall_ok_of_parse env x msgs (hpre x (by simp))
    simp only [List.cons_append, execToolCalls, hc]
    exact ih (fun y hy => hpre y (by simp [hy])) (msgs ++ [Message.tool x.id c])

/-- Claim C10: the arguments of each tool call are parsed before and
outside the guard around the invocation, so a request whose arguments text
is not valid JSON makes the whole handler abort with the parse error —
after any earlier parse-clean calls of the round — rather than appending an
`Error:` tool-result message and continuing. -/
theorem claim10_unparsable_arguments_abort {Val : Type} (penv : ProcessEnv)
    (env : Env Val) (schemas : List (ToolSchema Val)) (resp : ResponseMessage)
    (rest : List ResponseMessage) (msgs : List Message) (log : List (ChatRequest Val))
    (pre : List ToolCall) (tc : ToolCall) (post : List ToolCall) (e : String)
    (htc : resp.tool_calls = some (pre ++ tc :: post))
    (hpre : ∀ x ∈ pre, ∃ v, env.parseJSON x.function.arguments = Except.ok v)
    (hbad : env.parseJSON tc.function.arguments = Except.error e) :
    runLoop penv env schemas (resp :: rest) msgs log = .error (.parseFailure e) ∧
    ∀ (w : RegistryWorld Val) (st st' : Registry Val) (c : Nat)
      (ts : List (ToolDescriptor Val)),
      getMCPClient penv w st = (Except.ok (c, ts), st') →
      POST penv env w st (resp :: rest) msgs =
        (.error (.loop (.parseFailure e)), st') := by
  have hnt : noToolCalls resp = false := by
    simp only [noToolCalls, htc]
    cases pre <;> simp [List.isEmpty]
  have habort : ∀ (schemas' : List (ToolSchema Val)) (log' : List (ChatRequest Val)),
      runLoop penv env schemas' (resp :: rest) msgs log' = .error (.parseFailure e) := by
    intro schemas' log'
    have he := execToolCalls_parse_abort env pre tc post e hpre hbad
      (msgs ++ [Message.assistant resp])
    simp [runLoop, hnt, htc, he]
  refine ⟨habort schemas log, ?_⟩
  intro w st st' c ts hreg
  simp [POST, hreg, habort (toolSchemas ts) []]

/-- Witness for claim C10 at the concrete unparsable round `respBad`. -/
theorem claim10_witness :
    runLoop penv0 envP (toolSchemas [td0]) [respBad] [] [] =
      Except.error (.parseFailure "Unexpected token") ∧
    POST penv0 envP wHealthy (initialRegistry String) [respBad] [] =
      (.error (.loop (.parseFailure "Unexpected token")), ⟨some 0, [td0], 1⟩) :=
  have h := claim10_unparsable_arguments_abort penv0 envP (toolSchemas [td0]) respBad [] [] []
    [] tcBad [] "Unexpected token" rfl (by simp) rfl
  ⟨h.1, h.2 wHealthy (initialRegistry String) ⟨some 0, [td0], 1⟩ 0 [td0] rfl⟩

end PDChat
